import Mathlib

/-!
# Verification of the `canvas` choropleth map renderer

Shallow embedding of the Go choropleth map server (`main.go`, adaptive
variant; the fixed-viewport variant shares the validation and color code).

Conventions of the embedding:
* Go `int` values (region ids, severities, HTTP status codes) are `ℤ`/`ℕ`.
* Geographic coordinates and bounding boxes (`float64` in Go, used only
  with comparisons, `min`/`max` and field selection in `calculateBounds`)
  are `ℚ`, which is exact for those operations.
* The projection `funcToScreen` uses `math.Cos`, so it is idealized over
  `ℝ` with `Real.cos`.
* Fallible Go code (early `http.Error` returns) is `Except`; the unchecked
  type assertion `feature.Properties["id"].(float64)` in `calculateBounds`,
  which panics on a missing or non-numeric id, is `Except Unit` with
  `.error ()` standing for the panic.
* Collaborators (JSON unmarshalling of the query, loading of
  `japan.geojson`, SVG rasterization) are parameters of the handler.
-/

/-- One entry of the `scale` query parameter
(Go struct `IntensityQuery { ID int; Scale int }`). -/
structure IntensityQuery where
  ID : ℤ
  Scale : ℤ
deriving DecidableEq

/-- `intensityToColor` from `main.go`: the Go `switch` on the severity with
its `default` branch (`scale > 6`, then `scale > 5`, then the severity-0
color). -/
def intensityToColor (scale : ℤ) : String :=
  if scale = 0 then "#27272a"
  else if scale = 1 then "#bae6fd"
  else if scale = 2 then "#4ade80"
  else if scale = 3 then "#facc15"
  else if scale = 4 then "#f97316"
  else if scale = 5 then "#dc2626"
  else if scale = 6 then "#86198f"
  else if scale = 7 then "#500724"
  else if scale > 6 then "#4a044e"
  else if scale > 5 then "#b91c1c"
  else "#27272a"

/-- The color table the spec documents for severities `0..7`. -/
def documentedColor (scale : ℤ) : String :=
  if scale = 0 then "#27272a"
  else if scale = 1 then "#bae6fd"
  else if scale = 2 then "#4ade80"
  else if scale = 3 then "#facc15"
  else if scale = 4 then "#f97316"
  else if scale = 5 then "#dc2626"
  else if scale = 6 then "#86198f"
  else "#500724"

/-- Amended color policy: the table for `0..7`, `#4a044e` for every value
above `7` (so also for `9`, `10`, ...), and the severity-0 color for every
negative value.  The `#b91c1c` branch of the source is unreachable. -/
def colorPolicyAmended (scale : ℤ) : String :=
  if 0 ≤ scale ∧ scale ≤ 7 then documentedColor scale
  else if 7 < scale then "#4a044e"
  else "#27272a"

/-- Lookup in the scale map.  The Go `scaleMap` is a `map[int]int`; we
represent it as an association list with unique keys (assignment
overwrites, `insertScale`), so `lookupScale` is the map read. -/
def lookupScale (m : List (ℤ × ℤ)) (id : ℤ) : Option ℤ :=
  match m with
  | [] => none
  | (k, v) :: rest => if k = id then some v else lookupScale rest id

/-- Map assignment `scaleMap[id] = v`: overwrite the entry for `id` if
present, append otherwise. -/
def insertScale (m : List (ℤ × ℤ)) (id v : ℤ) : List (ℤ × ℤ) :=
  match m with
  | [] => [(id, v)]
  | (k, w) :: rest => if k = id then (k, v) :: rest else (k, w) :: insertScale rest id v

/-- The validation loop of `mapHandler` over the decoded `scale` entries:
reject the first entry whose `Scale` is outside `[0,7]` (returning the
offending id and value, Go's early `http.Error` + `return`), otherwise
assign it into the scale map. -/
def validateLoop (l : List IntensityQuery) (acc : List (ℤ × ℤ)) :
    Except (ℤ × ℤ) (List (ℤ × ℤ)) :=
  match l with
  | [] => .ok acc
  | q :: rest =>
    if q.Scale < 0 ∨ 7 < q.Scale then .error (q.ID, q.Scale)
    else validateLoop rest (insertScale acc q.ID q.Scale)

/-- Building the scale map in `mapHandler`, starting from the empty map. -/
def validateIntensities (l : List IntensityQuery) : Except (ℤ × ℤ) (List (ℤ × ℤ)) :=
  validateLoop l []

/-- Spec-side description of last-write-wins: the severity of the last
entry of the sequence carrying the given id, if any. -/
def lastScale (l : List IntensityQuery) (id : ℤ) : Option ℤ :=
  match l with
  | [] => none
  | q :: rest =>
    match lastScale rest id with
    | some v => some v
    | none => if q.ID = id then some q.Scale else none

/-- GeoJSON geometry type tag of a feature (`feature.Geometry.Type`);
`other` stands for any type the renderer does not support. -/
inductive GeomType where
  | polygon
  | multiPolygon
  | other
deriving DecidableEq

/-- One GeoJSON feature as the renderer sees it: the numeric `id` property
(`none` when the property is missing or not numeric, in which case the Go
type assertion `.(float64)` panics), the geometry type, and the
`Polygon` / `MultiPolygon` coordinate fields of `go.geojson`'s `Geometry`.
Coordinates are `(longitude, latitude)` pairs. -/
structure Feature where
  idProp : Option ℚ
  geomType : GeomType
  polygon : List (List (ℚ × ℚ))
  multiPolygon : List (List (List (ℚ × ℚ)))
deriving DecidableEq

/-- Go's `int(f)` conversion from `float64`: truncation toward zero. -/
def truncToInt (q : ℚ) : ℤ :=
  q.num / (q.den : ℤ)

/-- The geographic bounding box returned by `calculateBounds`. -/
structure Bounds where
  minLon : ℚ
  minLat : ℚ
  maxLon : ℚ
  maxLat : ℚ
deriving DecidableEq

/-- One `min`/`max` update of the bounds from a single coordinate, as in
the inner loop of `calculateBounds`. -/
def boundsStep (st : Bounds) (c : ℚ × ℚ) : Bounds :=
  ⟨min st.minLon c.1, min st.minLat c.2, max st.maxLon c.1, max st.maxLat c.2⟩

/-- The `switch feature.Geometry.Type` of `calculateBounds`: fold the
bounds update over every coordinate of every ring of the feature
(`Polygon` and `MultiPolygon` cases; any other type leaves the bounds
unchanged). -/
def featureBoundsFold (f : Feature) (st : Bounds) : Bounds :=
  match f.geomType with
  | .polygon => f.polygon.foldl (fun s ring => ring.foldl boundsStep s) st
  | .multiPolygon =>
    f.multiPolygon.foldl
      (fun s poly => poly.foldl (fun s2 ring => ring.foldl boundsStep s2) s) st
  | .other => st

/-- Whether `calculateBounds` uses a feature: the Go loop reads
`scaleMap[id]` (zero for an absent key) and skips the feature when it is
`0`.  A feature without a numeric id never reaches this test — the id
read panics first — so the `none` case here is irrelevant under the
no-panic hypothesis. -/
def featureActive (m : List (ℤ × ℤ)) (f : Feature) : Bool :=
  match f.idProp with
  | none => false
  | some q => ((lookupScale m (truncToInt q)).getD 0) != 0

/-- The loop of `calculateBounds`.  For each feature the Go code first
evaluates `int(feature.Properties["id"].(float64))` — a panic when the
property is missing or not numeric, modeled as `.error ()` — then skips
the feature when its severity is `0`, else folds its coordinates into the
bounds. -/
def calcBoundsLoop (fc : List Feature) (m : List (ℤ × ℤ)) (st : Bounds) :
    Except Unit Bounds :=
  match fc with
  | [] => .ok st
  | f :: rest =>
    match f.idProp with
    | none => .error ()
    | some q =>
      if (lookupScale m (truncToInt q)).getD 0 = 0 then calcBoundsLoop rest m st
      else calcBoundsLoop rest m (featureBoundsFold f st)

/-- `calculateBounds` from `main.go`: the loop above started at the
sentinel box `(180, 90, -180, -90)`. -/
def calculateBounds (fc : List Feature) (m : List (ℤ × ℤ)) : Except Unit Bounds :=
  calcBoundsLoop fc m ⟨180, 90, -180, -90⟩

/-- Spec-side helper: the coordinates of a feature in source order, rings
flattened exactly as `calculateBounds` visits them. -/
def featureCoords (f : Feature) : List (ℚ × ℚ) :=
  match f.geomType with
  | .polygon => f.polygon.flatten
  | .multiPolygon => (f.multiPolygon.map List.flatten).flatten
  | .other => []

/-- Spec-side helper: every coordinate of every ring of every active
region, in source order. -/
def activeCoords (m : List (ℤ × ℤ)) (fc : List Feature) : List (ℚ × ℚ) :=
  (fc.filter (featureActive m)).flatMap featureCoords

/-- The projection closure `funcToScreen` of the adaptive `mapHandler`,
idealized over the reals (Go computes in `float64`): inset margin of 10%
on each side of the 1280x720 canvas, latitude correction
`cos(centerLat*pi/180)` of the longitude span, the common scale as the
minimum of the two axis scales, both axes centered on the bounding box's
midpoint and re-centered on the canvas midpoint. -/
noncomputable def funcToScreen (minLon minLat maxLon maxLat lon lat : ℝ) : ℝ × ℝ :=
  let margin : ℝ := 0.1
  let effectiveWidth : ℝ := 1280 * (1 - 2 * margin)
  let effectiveHeight : ℝ := 720 * (1 - 2 * margin)
  let centerLat := (maxLat + minLat) / 2
  let centerLon := (maxLon + minLon) / 2
  let centerX : ℝ := 1280 / 2
  let centerY : ℝ := 720 / 2
  let lonCorrection := Real.cos (centerLat * Real.pi / 180)
  let lonSpan := (maxLon - minLon) * lonCorrection
  let latSpan := maxLat - minLat
  let scaleX := effectiveWidth / lonSpan
  let scaleY := effectiveHeight / latSpan
  let scale := min scaleX scaleY
  (((lon - centerLon) * lonCorrection) * scale + centerX,
    (centerLat - lat) * scale + centerY)

/-- One element written to the SVG canvas: the background rectangle
(`canvas.Rect`) or one region's path (`canvas.Path`).  A path's data is
the list of its screen-space rings (each ring one `M ... L ... Z` run in
the concatenated `d` string); the textual serialization of the numbers
belongs to `fmt`/`svgo`. -/
inductive SvgElem where
  | rect (x y w h : ℤ) (style : String)
  | path (d : List (List (ℝ × ℝ))) (style : String)

/-- A ring mapped through the projection, in order. -/
def ringPath (ts : ℚ → ℚ → ℝ × ℝ) (ring : List (ℚ × ℚ)) : List (ℝ × ℝ) :=
  ring.map (fun c => ts c.1 c.2)

/-- The per-feature path list of the render loop: one screen ring per
source ring for `Polygon` and `MultiPolygon` (polygons flattened in
order), none for unsupported geometry types. -/
def featurePaths (ts : ℚ → ℚ → ℝ × ℝ) (f : Feature) : List (List (ℝ × ℝ)) :=
  match f.geomType with
  | .polygon => f.polygon.map (ringPath ts)
  | .multiPolygon => (f.multiPolygon.map (fun poly => poly.map (ringPath ts))).flatten
  | .other => []

/-- The style string attached to every region path
(`fmt.Sprintf("fill:%s;stroke:#a1a1aa;stroke-width:0.2;fill-opacity:0.8", fillColor)`). -/
def styleFor (c : String) : String :=
  "fill:" ++ c ++ ";stroke:#a1a1aa;stroke-width:0.2;fill-opacity:0.8"

/-- One iteration of the render loop of `mapHandler`: read the feature's
id (checked here — `http.Error 500` on failure, modeled as `.error ()`),
default the severity to `0` when the id is absent from the scale map,
and emit a single `canvas.Path` call whose data concatenates all of the
feature's rings. -/
def renderFeature (ts : ℚ → ℚ → ℝ × ℝ) (m : List (ℤ × ℤ)) (f : Feature) :
    Except Unit SvgElem :=
  match f.idProp with
  | none => .error ()
  | some q =>
    let scaleValue := (lookupScale m (truncToInt q)).getD 0
    .ok (.path (featurePaths ts f) (styleFor (intensityToColor scaleValue)))

/-- The render loop over the whole feature collection, in collection
order, stopping at the first feature without a numeric id. -/
def renderScene (ts : ℚ → ℚ → ℝ × ℝ) (m : List (ℤ × ℤ)) (fc : List Feature) :
    Except Unit (List SvgElem) :=
  match fc with
  | [] => .ok []
  | f :: rest =>
    match renderFeature ts m f with
    | .error e => .error e
    | .ok el =>
      match renderScene ts m rest with
      | .error e => .error e
      | .ok els => .ok (el :: els)

/-- The result of one request to `/map`. `panicked` is the outcome of a
Go runtime panic escaping the handler (no HTTP error is written). -/
inductive HResult where
  | httpError (status : ℕ) (msg : String)
  | panicked
  | svgResponse (contentType : String) (elems : List SvgElem)
  | pngResponse (contentType : String) (bytes : List ℕ)

/-- `svgToPNG` as far as the core is concerned: substitute the default
attribution string for an empty footer, then hand the scene to the
raster/text collaborator `rasterize`. -/
def svgToPNGModel (rasterize : List SvgElem → String → Except String (List ℕ))
    (elems : List SvgElem) (footer : String) : Except String (List ℕ) :=
  rasterize elems
    (if footer = "" then "Code available under the MIT License (GitHub: evacuate)."
     else footer)

/-- `mapHandler` from `main.go` (adaptive variant).  Parameters stand for
the collaborators: `parse` is `json.Unmarshal` into `[]IntensityQuery`,
`geo` is the result of reading and unmarshalling `japan.geojson` (the Go
error message already formatted), `rasterize` is the oksvg/freetype/png
pipeline inside `svgToPNG`.  `scaleData`, `format` and `footer` are the
query parameters (`r.URL.Query().Get` returns `""` when absent). -/
noncomputable def mapHandler (parse : String → Except String (List IntensityQuery))
    (rasterize : List SvgElem → String → Except String (List ℕ))
    (geo : Except String (List Feature))
    (scaleData format footer : String) : HResult :=
  if scaleData = "" then .httpError 400 "scale parameter is required"
  else
    match parse scaleData with
    | .error e => .httpError 400 ("Invalid scale data format: " ++ e)
    | .ok intensities =>
      match validateIntensities intensities with
      | .error iv =>
        .httpError 400
          ("Invalid scale value for ID " ++ toString iv.1 ++ ": " ++ toString iv.2)
      | .ok scaleMap =>
        match geo with
        | .error e => .httpError 500 e
        | .ok fc =>
          match calculateBounds fc scaleMap with
          | .error _ => .panicked
          | .ok b =>
            let ts : ℚ → ℚ → ℝ × ℝ := fun lon lat =>
              funcToScreen (b.minLon : ℝ) (b.minLat : ℝ) (b.maxLon : ℝ) (b.maxLat : ℝ)
                (lon : ℝ) (lat : ℝ)
            match renderScene ts scaleMap fc with
            | .error _ => .httpError 500 "Invalid ID format in GeoJSON"
            | .ok paths =>
              let elems := SvgElem.rect 0 0 1280 720 "fill:#18181b" :: paths
              if format = "svg" then .svgResponse "image/svg+xml" elems
              else
                match svgToPNGModel rasterize elems footer with
                | .error e => .httpError 500 ("Failed to convert svg to png: " ++ e)
                | .ok bytes => .pngResponse "image/png" bytes

/-- Count of path elements in a scene. -/
def pathCount (elems : List SvgElem) : ℕ :=
  (elems.filter (fun e => match e with | .path _ _ => true | _ => false)).length

/-- A concrete parse oracle for witnesses: the behaviour of
`json.Unmarshal` on three fixed query strings. -/
def parseSample (s : String) : Except String (List IntensityQuery) :=
  if s = "bad" then .error "invalid character"
  else if s = "inv" then .ok [⟨1, 9⟩, ⟨1, 3⟩]
  else .ok [⟨1, 3⟩]

/-- A concrete raster collaborator for witnesses. -/
def rasterSample (_ : List SvgElem) (_ : String) : Except String (List ℕ) :=
  .ok []

/-!
## Theorems
-/

/-- C1, counterexample: the claim says severity `9` maps to `#b91c1c` and
severity `10` (outside the defined bands) falls back to the severity-0
color `#27272a`; the code returns `#4a044e` in both cases, because the
`default` branch tests `scale > 6` before `scale > 5`. -/
theorem c1_counterexample :
    intensityToColor 9 = "#4a044e" ∧ intensityToColor 10 = "#4a044e" ∧
      "#4a044e" ≠ "#b91c1c" ∧ "#4a044e" ≠ "#27272a" := by
  refine ⟨by decide, by decide, by decide, by decide⟩

set_option maxHeartbeats 1000000 in
/-- C1, amended: for every integer severity the color policy is total and
returns the fixed table color on `[0,7]`, `#4a044e` for every severity
above `7` (including `9`), and the severity-0 color `#27272a` for every
negative severity. -/
theorem c1_color_policy_amended (scale : ℤ) :
    intensityToColor scale = colorPolicyAmended scale := by
  simp only [intensityToColor, colorPolicyAmended, documentedColor]
  split_ifs <;> first | rfl | omega

/-- C1 amended, witness: the amended policy evaluated at severities inside
the table, above it, and below it. -/
theorem c1_color_policy_amended_witness :
    intensityToColor 7 = colorPolicyAmended 7 ∧
      intensityToColor 8 = colorPolicyAmended 8 ∧
      intensityToColor (-3) = colorPolicyAmended (-3) :=
  ⟨c1_color_policy_amended 7, c1_color_policy_amended 8, c1_color_policy_amended (-3)⟩

theorem lookupScale_insertScale (m : List (ℤ × ℤ)) (id v j : ℤ) :
    lookupScale (insertScale m id v) j = if id = j then some v else lookupScale m j := by
  induction m with
  | nil => simp [insertScale, lookupScale]
  | cons hd tl ih =>
    obtain ⟨k, w⟩ := hd
    by_cases hk : k = id
    · subst hk
      by_cases hj : k = j <;> simp [insertScale, lookupScale, hj]
    · by_cases hj : k = j
      · subst hj
        have : ¬ id = k := fun h => hk h.symm
        simp [insertScale, lookupScale, hk, this]
      · simp [insertScale, lookupScale, hk, hj, ih]

theorem validateLoop_ok (l : List IntensityQuery)
    (hv : ∀ q ∈ l, 0 ≤ q.Scale ∧ q.Scale ≤ 7) (acc : List (ℤ × ℤ)) :
    ∃ m, validateLoop l acc = .ok m ∧
      ∀ id, lookupScale m id =
        match lastScale l id with
        | some v => some v
        | none => lookupScale acc id := by
  induction l generalizing acc with
  | nil => exact ⟨acc, rfl, fun id => rfl⟩
  | cons q rest ih =>
    have hq := hv q (List.mem_cons_self q rest)
    have hrest : ∀ p ∈ rest, 0 ≤ p.Scale ∧ p.Scale ≤ 7 :=
      fun p hp => hv p (List.mem_cons_of_mem q hp)
    obtain ⟨m, hm, hlook⟩ := ih hrest (insertScale acc q.ID q.Scale)
    refine ⟨m, ?_, ?_⟩
    · have hcond : ¬ (q.Scale < 0 ∨ 7 < q.Scale) := by omega
      simp [validateLoop, hcond, hm]
    · intro id
      have := hlook id
      rw [this, lookupScale_insertScale]
      cases hlast : lastScale rest id with
      | some v => simp [lastScale, hlast]
      | none =>
        by_cases hid : q.ID = id <;> simp [lastScale, hlast, hid]

/-- C8: for every sequence of valid intensity entries (all severities in
`[0,7]`), validation succeeds and the resulting scale map sends each
region id to the severity of the last entry carrying that id
(last-write-wins); ids that never occur are absent from the map. -/
theorem c8_last_write_wins (l : List IntensityQuery)
    (hv : ∀ q ∈ l, 0 ≤ q.Scale ∧ q.Scale ≤ 7) :
    ∃ m, validateIntensities l = .ok m ∧ ∀ id, lookupScale m id = lastScale l id := by
  obtain ⟨m, hm, hlook⟩ := validateLoop_ok l hv []
  refine ⟨m, hm, fun id => ?_⟩
  have := hlook id
  cases hlast : lastScale l id <;> simp [hlast, lookupScale] at this ⊢ <;> exact this

/-- C8, witness: `[{id:1,scale:2},{id:1,scale:5}]` validates and resolves
region `1` to severity `5`. -/
theorem c8_last_write_wins_witness :
    ∃ m, validateIntensities [⟨1, 2⟩, ⟨1, 5⟩] = .ok m ∧
      ∀ id, lookupScale m id = lastScale [⟨1, 2⟩, ⟨1, 5⟩] id :=
  c8_last_write_wins [⟨1, 2⟩, ⟨1, 5⟩] (by decide)

theorem validateLoop_first_invalid (pre : List IntensityQuery) (q : IntensityQuery)
    (post : List IntensityQuery) (acc : List (ℤ × ℤ))
    (hpre : ∀ p ∈ pre, 0 ≤ p.Scale ∧ p.Scale ≤ 7) (hq : q.Scale < 0 ∨ 7 < q.Scale) :
    validateLoop (pre ++ q :: post) acc = .error (q.ID, q.Scale) := by
  induction pre generalizing acc with
  | nil => simp [validateLoop, hq]
  | cons p rest ih =>
    have hp := hpre p (List.mem_cons_self p rest)
    have hcond : ¬ (p.Scale < 0 ∨ 7 < p.Scale) := by omega
    simpa [validateLoop, hcond] using
      ih (insertScale acc p.ID p.Scale) (fun x hx => hpre x (List.mem_cons_of_mem p hx))

/-- C10: validation runs per entry in input order before any overwriting,
so a `scale` array whose first invalid entry is `q` is rejected with HTTP
400 naming `q`'s id and value even when a later entry for the same region
carries a valid value, and the valid entries preceding `q` leave no trace
in the response. -/
theorem c10_first_invalid_entry_rejected
    (parse : String → Except String (List IntensityQuery))
    (rasterize : List SvgElem → String → Except String (List ℕ))
    (geo : Except String (List Feature)) (scaleData format footer : String)
    (pre : List IntensityQuery) (q : IntensityQuery) (post : List IntensityQuery)
    (hs : scaleData ≠ "") (hp : parse scaleData = .ok (pre ++ q :: post))
    (hpre : ∀ p ∈ pre, 0 ≤ p.Scale ∧ p.Scale ≤ 7) (hq : q.Scale < 0 ∨ 7 < q.Scale) :
    mapHandler parse rasterize geo scaleData format footer =
      .httpError 400
        ("Invalid scale value for ID " ++ toString q.ID ++ ": " ++ toString q.Scale) := by
  unfold mapHandler
  rw [if_neg hs, hp]
  simp [validateIntensities, validateLoop_first_invalid pre q post [] hpre hq]

/-- C10, witness: `[{id:1,scale:9},{id:1,scale:3}]` is rejected with 400
naming id `1` and value `9`, not resolved to severity `3`. -/
theorem c10_first_invalid_entry_rejected_witness :
    mapHandler parseSample rasterSample (.ok []) "inv" "" "" =
      .httpError 400
        ("Invalid scale value for ID " ++ toString (1 : ℤ) ++ ": " ++ toString (9 : ℤ)) :=
  c10_first_invalid_entry_rejected parseSample rasterSample (.ok []) "inv" "" ""
    [] ⟨1, 9⟩ [⟨1, 3⟩] (by decide) rfl (by decide) (by decide)

/-- C7: an absent `scale` parameter yields 400 "scale parameter is
required"; a `scale` value the JSON decoder rejects yields 400 with the
parse error detail; an array containing an out-of-range entry (first
offender `q`) yields 400 naming `q`'s id and value; severity exactly `7`
is accepted by the intensity-table validation and exactly `8` is
rejected.  Every such result is an `httpError`, not an `svgResponse` or
`pngResponse`, so no image is rendered. -/
theorem c7_scale_validation_errors
    (parse : String → Except String (List IntensityQuery))
    (rasterize : List SvgElem → String → Except String (List ℕ))
    (geo : Except String (List Feature)) (format footer : String) :
    (mapHandler parse rasterize geo "" format footer =
        .httpError 400 "scale parameter is required")
    ∧ (∀ s e, s ≠ "" → parse s = .error e →
        mapHandler parse rasterize geo s format footer =
          .httpError 400 ("Invalid scale data format: " ++ e))
    ∧ (∀ s pre q post, s ≠ "" → parse s = .ok (pre ++ q :: post) →
        (∀ p ∈ pre, 0 ≤ p.Scale ∧ p.Scale ≤ 7) → (q.Scale < 0 ∨ 7 < q.Scale) →
        mapHandler parse rasterize geo s format footer =
          .httpError 400
            ("Invalid scale value for ID " ++ toString q.ID ++ ": " ++ toString q.Scale))
    ∧ (∀ i : ℤ, validateIntensities [⟨i, 7⟩] = .ok [(i, 7)]
        ∧ validateIntensities [⟨i, 8⟩] = .error (i, 8)) := by
  refine ⟨?_, ?_, ?_, ?_⟩
  · unfold mapHandler
    rw [if_pos rfl]
  · intro s e hs hp
    unfold mapHandler
    rw [if_neg hs, hp]
  · intro s pre q post hs hp hpre hq
    unfold mapHandler
    rw [if_neg hs, hp]
    simp [validateIntensities, validateLoop_first_invalid pre q post [] hpre hq]
  · intro i
    constructor
    · simp [validateIntensities, validateLoop, insertScale]
    · simp [validateIntensities, validateLoop]

/-- C7, witness: the three 400 responses and the 7/8 boundary at concrete
inputs. -/
theorem c7_scale_validation_errors_witness :
    (mapHandler parseSample rasterSample (.ok []) "" "" "" =
        .httpError 400 "scale parameter is required")
    ∧ (mapHandler parseSample rasterSample (.ok []) "bad" "" "" =
        .httpError 400 ("Invalid scale data format: " ++ "invalid character"))
    ∧ (mapHandler parseSample rasterSample (.ok []) "inv" "" "" =
        .httpError 400
          ("Invalid scale value for ID " ++ toString (1 : ℤ) ++ ": " ++ toString (9 : ℤ)))
    ∧ validateIntensities [⟨5, 7⟩] = .ok [(5, 7)]
    ∧ validateIntensities [⟨5, 8⟩] = .error (5, 8) := by
  obtain ⟨h1, h2, h3, h4⟩ :=
    c7_scale_validation_errors parseSample rasterSample (.ok []) "" ""
  exact ⟨h1, h2 "bad" "invalid character" (by decide) rfl,
    h3 "inv" [] ⟨1, 9⟩ [⟨1, 3⟩] (by decide) rfl (by decide) (by decide),
    (h4 5).1, (h4 5).2⟩

/-- C2, exhibiting the bug: with a nonempty feature collection and an
intensity table in which no region has nonzero severity, `calculateBounds`
returns the sentinel initial box `(180, 90, -180, -90)` unchanged — an
inverted box with `minLon > maxLon` and `minLat > maxLat` — instead of a
sane default box. -/
theorem c2_sentinel_box_bug :
    calculateBounds [⟨some 13, .polygon, [[(135, 35)]], []⟩] [] =
        .ok ⟨180, 90, -180, -90⟩
      ∧ ¬ ((180 : ℚ) ≤ -180) ∧ ¬ ((90 : ℚ) ≤ -90) :=
  ⟨rfl, by decide, by decide⟩

/-- C3, exhibiting the bug: a request with a valid `scale` parameter and a
geometry file whose feature has no numeric region-identifier property does
not produce the HTTP 500 `SchemaError` response: `calculateBounds`
evaluates the unchecked type assertion
`feature.Properties["id"].(float64)` before the render loop's checked
read, so the handler panics (the checked 500 path is unreachable). -/
theorem c3_missing_id_panics :
    mapHandler parseSample rasterSample
        (.ok [⟨none, .polygon, [[(135, 35)]], []⟩]) "s" "" "" = .panicked
      ∧ ∀ st msg, HResult.panicked ≠ .httpError st msg :=
  ⟨rfl, fun _ _ h => HResult.noConfusion h⟩

/-- C4, counterexample: a request with `format=svg`, an empty valid
`scale` array and a single feature of an unsupported geometry type (zero
extracted rings) returns markup containing one path element for that
region — with an empty data list — not zero: the render loop calls
`canvas.Path` for every feature, even when `paths` is empty. -/
theorem c4_counterexample :
    mapHandler (fun _ => .ok []) rasterSample (.ok [⟨some 7, .other, [], []⟩])
        "[]" "svg" "" =
      .svgResponse "image/svg+xml"
        [.rect 0 0 1280 720 "fill:#18181b",
          .path [] (styleFor (intensityToColor 0))]
      ∧ pathCount
          [SvgElem.rect 0 0 1280 720 "fill:#18181b",
            .path [] (styleFor (intensityToColor 0))] = 1 :=
  ⟨rfl, rfl⟩

theorem calcBoundsLoop_isOk (fc : List Feature) (m : List (ℤ × ℤ)) (st : Bounds)
    (hids : ∀ f ∈ fc, f.idProp ≠ none) :
    ∃ b, calcBoundsLoop fc m st = .ok b := by
  induction fc generalizing st with
  | nil => exact ⟨st, rfl⟩
  | cons f rest ih =>
    have hf := hids f (List.mem_cons_self f rest)
    have hrest : ∀ x ∈ rest, x.idProp ≠ none :=
      fun x hx => hids x (List.mem_cons_of_mem f hx)
    cases hq : f.idProp with
    | none => exact absurd hq hf
    | some q =>
      by_cases hz : (lookupScale m (truncToInt q)).getD 0 = 0
      · obtain ⟨b, hb⟩ := ih st hrest
        exact ⟨b, by simp [calcBoundsLoop, hq, hz, hb]⟩
      · obtain ⟨b, hb⟩ := ih (featureBoundsFold f st) hrest
        exact ⟨b, by simp [calcBoundsLoop, hq, hz, hb]⟩

theorem renderScene_ok (ts : ℚ → ℚ → ℝ × ℝ) (m : List (ℤ × ℤ)) (fc : List Feature)
    (hids : ∀ f ∈ fc, f.idProp ≠ none) :
    ∃ elems, renderScene ts m fc = .ok elems ∧ pathCount elems = fc.length ∧
      ∀ e ∈ elems, ∃ d s2, e = SvgElem.path d s2 := by
  induction fc with
  | nil => exact ⟨[], rfl, rfl, by simp⟩
  | cons f rest ih =>
    have hf := hids f (List.mem_cons_self f rest)
    have hrest : ∀ x ∈ rest, x.idProp ≠ none :=
      fun x hx => hids x (List.mem_cons_of_mem f hx)
    obtain ⟨elems, he, hc, hp⟩ := ih hrest
    cases hq : f.idProp with
    | none => exact absurd hq hf
    | some q =>
      refine ⟨SvgElem.path (featurePaths ts f)
          (styleFor (intensityToColor ((lookupScale m (truncToInt q)).getD 0))) :: elems,
        ?_, ?_, ?_⟩
      · simp [renderScene, renderFeature, hq, he]
      · simp [pathCount, List.filter] at hc ⊢
        exact hc
      · intro e hmem
        rcases List.mem_cons.mp hmem with h | h
        · exact ⟨_, _, h⟩
        · exact hp e h

/-- C4, amended: for every valid `format=svg` request over a feature
collection whose features all carry a numeric id, the returned markup is
the background rectangle followed by exactly one path element per feature
— including features with zero extracted rings (unsupported geometry
types), whose path element simply has empty path data. -/
theorem c4_one_path_element_per_feature
    (parse : String → Except String (List IntensityQuery))
    (rasterize : List SvgElem → String → Except String (List ℕ))
    (fc : List Feature) (s footer : String) (ints : List IntensityQuery)
    (m : List (ℤ × ℤ))
    (hs : s ≠ "") (hp : parse s = .ok ints) (hv : validateIntensities ints = .ok m)
    (hids : ∀ f ∈ fc, f.idProp ≠ none) :
    ∃ paths, mapHandler parse rasterize (.ok fc) s "svg" footer =
        .svgResponse "image/svg+xml" (SvgElem.rect 0 0 1280 720 "fill:#18181b" :: paths)
      ∧ pathCount (SvgElem.rect 0 0 1280 720 "fill:#18181b" :: paths) = fc.length
      ∧ ∀ e ∈ paths, ∃ d s2, e = SvgElem.path d s2 := by
  obtain ⟨b, hb⟩ := calcBoundsLoop_isOk fc m ⟨180, 90, -180, -90⟩ hids
  obtain ⟨elems, he, hc, hpa⟩ := renderScene_ok
    (fun lon lat => funcToScreen (b.minLon : ℝ) (b.minLat : ℝ) (b.maxLon : ℝ)
      (b.maxLat : ℝ) (lon : ℝ) (lat : ℝ)) m fc hids
  refine ⟨elems, ?_, ?_, hpa⟩
  · unfold mapHandler
    rw [if_neg hs, hp]
    simp only [hv, calculateBounds, hb, he]
    rfl
  · simpa [pathCount, List.filter] using hc

/-- C4 amended, witness: two features — one of unsupported geometry type,
one polygon — yield a scene with the background rectangle and exactly two
path elements. -/
theorem c4_one_path_element_per_feature_witness :
    ∃ paths, mapHandler (fun _ => .ok []) rasterSample
        (.ok [⟨some 7, .other, [], []⟩, ⟨some 2, .polygon, [[(135, 35)]], []⟩])
        "[]" "svg" "" =
        .svgResponse "image/svg+xml" (SvgElem.rect 0 0 1280 720 "fill:#18181b" :: paths)
      ∧ pathCount (SvgElem.rect 0 0 1280 720 "fill:#18181b" :: paths) =
          [⟨some 7, .other, [], []⟩, (⟨some 2, .polygon, [[(135, 35)]], []⟩ : Feature)].length
      ∧ ∀ e ∈ paths, ∃ d s2, e = SvgElem.path d s2 :=
  c4_one_path_element_per_feature (fun _ => .ok []) rasterSample
    [⟨some 7, .other, [], []⟩, ⟨some 2, .polygon, [[(135, 35)]], []⟩] "[]" "" [] []
    (by decide) rfl rfl (by decide)

/-- C9: the rendering pipeline is a deterministic function of its input —
two runs of the handler on the same request and collaborators are
identical — and the scene depends on the intensity table only through its
lookups (so the internal representation and insertion history of the map,
hash iteration order included, cannot leak into the output); the path for
a feature is emitted before the paths of the features after it, in
feature-collection order. -/
theorem c9_deterministic_render (ts : ℚ → ℚ → ℝ × ℝ) (m1 m2 : List (ℤ × ℤ))
    (fc : List Feature) (hm : ∀ i, lookupScale m1 i = lookupScale m2 i) :
    renderScene ts m1 fc = renderScene ts m2 fc
    ∧ (∀ parse rasterize geo s fmt ftr,
        mapHandler parse rasterize geo s fmt ftr = mapHandler parse rasterize geo s fmt ftr)
    ∧ (∀ f rest e els, renderFeature ts m1 f = .ok e → renderScene ts m1 rest = .ok els →
        renderScene ts m1 (f :: rest) = .ok (e :: els)) := by
  refine ⟨?_, fun _ _ _ _ _ _ => rfl, ?_⟩
  · induction fc with
    | nil => rfl
    | cons f rest ih =>
      have hf : renderFeature ts m1 f = renderFeature ts m2 f := by
        unfold renderFeature
        cases f.idProp <;> simp [hm]
      simp [renderScene, hf, ih]
  · intro f rest e els hf hrest
    simp [renderScene, hf, hrest]

/-- C9, witness: the determinism statement at a concrete projection,
table and feature collection. -/
theorem c9_deterministic_render_witness :
    renderScene (fun _ _ => ((0 : ℝ), (0 : ℝ))) [(1, 5)] [⟨some 1, .polygon, [[(135, 35)]], []⟩]
        = renderScene (fun _ _ => ((0 : ℝ), (0 : ℝ))) [(1, 5)] [⟨some 1, .polygon, [[(135, 35)]], []⟩]
    ∧ (∀ parse rasterize geo s fmt ftr,
        mapHandler parse rasterize geo s fmt ftr = mapHandler parse rasterize geo s fmt ftr)
    ∧ (∀ f rest e els,
        renderFeature (fun _ _ => ((0 : ℝ), (0 : ℝ))) [(1, 5)] f = .ok e →
        renderScene (fun _ _ => ((0 : ℝ), (0 : ℝ))) [(1, 5)] rest = .ok els →
        renderScene (fun _ _ => ((0 : ℝ), (0 : ℝ))) [(1, 5)] (f :: rest) = .ok (e :: els)) :=
  c9_deterministic_render (fun _ _ => ((0 : ℝ), (0 : ℝ))) [(1, 5)] [(1, 5)]
    [⟨some 1, .polygon, [[(135, 35)]], []⟩] (fun _ => rfl)

theorem foldl_min_le {α β : Type} [LinearOrder α] (g : β → α) (l : List β) (a : α) :
    l.foldl (fun x c => min x (g c)) a ≤ a ∧
      ∀ c ∈ l, l.foldl (fun x c => min x (g c)) a ≤ g c := by
  induction l generalizing a with
  | nil => simp
  | cons c rest ih =>
    have h := ih (min a (g c))
    refine ⟨h.1.trans (min_le_left a (g c)), ?_⟩
    intro x hx
    rcases List.mem_cons.mp hx with h1 | h1
    · subst h1
      exact h.1.trans (min_le_right a (g x))
    · exact h.2 x h1

theorem foldl_min_attained {α β : Type} [LinearOrder α] (g : β → α) (l : List β) (a : α) :
    l.foldl (fun x c => min x (g c)) a = a ∨
      ∃ c ∈ l, l.foldl (fun x c => min x (g c)) a = g c := by
  induction l generalizing a with
  | nil => exact .inl rfl
  | cons c rest ih =>
    rcases ih (min a (g c)) with h | ⟨c', hc', h⟩
    · rcases min_choice a (g c) with hm | hm
      · exact .inl (by rw [List.foldl_cons, h, hm])
      · exact .inr ⟨c, List.mem_cons_self c rest, by rw [List.foldl_cons, h, hm]⟩
    · exact .inr ⟨c', List.mem_cons_of_mem c hc', h⟩

theorem foldl_max_le {α β : Type} [LinearOrder α] (g : β → α) (l : List β) (a : α) :
    a ≤ l.foldl (fun x c => max x (g c)) a ∧
      ∀ c ∈ l, g c ≤ l.foldl (fun x c => max x (g c)) a := by
  induction l generalizing a with
  | nil => simp
  | cons c rest ih =>
    have h := ih (max a (g c))
    refine ⟨(le_max_left a (g c)).trans h.1, ?_⟩
    intro x hx
    rcases List.mem_cons.mp hx with h1 | h1
    · subst h1
      exact (le_max_right a (g x)).trans h.1
    · exact h.2 x h1

theorem foldl_max_attained {α β : Type} [LinearOrder α] (g : β → α) (l : List β) (a : α) :
    l.foldl (fun x c => max x (g c)) a = a ∨
      ∃ c ∈ l, l.foldl (fun x c => max x (g c)) a = g c := by
  induction l generalizing a with
  | nil => exact .inl rfl
  | cons c rest ih =>
    rcases ih (max a (g c)) with h | ⟨c', hc', h⟩
    · rcases max_choice a (g c) with hm | hm
      · exact .inl (by rw [List.foldl_cons, h, hm])
      · exact .inr ⟨c, List.mem_cons_self c rest, by rw [List.foldl_cons, h, hm]⟩
    · exact .inr ⟨c', List.mem_cons_of_mem c hc', h⟩

theorem foldl_boundsStep_components (l : List (ℚ × ℚ)) (st : Bounds) :
    (l.foldl boundsStep st).minLon = l.foldl (fun a c => min a c.1) st.minLon
    ∧ (l.foldl boundsStep st).minLat = l.foldl (fun a c => min a c.2) st.minLat
    ∧ (l.foldl boundsStep st).maxLon = l.foldl (fun a c => max a c.1) st.maxLon
    ∧ (l.foldl boundsStep st).maxLat = l.foldl (fun a c => max a c.2) st.maxLat := by
  induction l generalizing st with
  | nil => exact ⟨rfl, rfl, rfl, rfl⟩
  | cons c rest ih => simpa [boundsStep] using ih (boundsStep st c)

theorem featureBoundsFold_eq_foldl (f : Feature) (st : Bounds) :
    featureBoundsFold f st = (featureCoords f).foldl boundsStep st := by
  cases hg : f.geomType with
  | polygon =>
    simp only [featureBoundsFold, featureCoords, hg]
    exact (List.foldl_flatten boundsStep st f.polygon).symm
  | multiPolygon =>
    simp only [featureBoundsFold, featureCoords, hg]
    rw [List.foldl_flatten, List.foldl_map]
    simp only [List.foldl_flatten]
  | other => simp [featureBoundsFold, featureCoords, hg]

theorem activeCoords_cons (m : List (ℤ × ℤ)) (f : Feature) (rest : List Feature) :
    activeCoords m (f :: rest) =
      (if featureActive m f then featureCoords f else []) ++ activeCoords m rest := by
  by_cases h : featureActive m f <;> simp [activeCoords, List.filter_cons, h]

theorem calcBoundsLoop_eq_foldl (fc : List Feature) (m : List (ℤ × ℤ)) (st : Bounds)
    (hids : ∀ f ∈ fc, f.idProp ≠ none) :
    calcBoundsLoop fc m st = .ok ((activeCoords m fc).foldl boundsStep st) := by
  induction fc generalizing st with
  | nil => simp [calcBoundsLoop, activeCoords]
  | cons f rest ih =>
    have hf := hids f (List.mem_cons_self f rest)
    have hrest : ∀ x ∈ rest, x.idProp ≠ none :=
      fun x hx => hids x (List.mem_cons_of_mem f hx)
    cases hq : f.idProp with
    | none => exact absurd hq hf
    | some q =>
      have hact : featureActive m f = ((lookupScale m (truncToInt q)).getD 0 != 0) := by
        simp [featureActive, hq]
      by_cases hz : (lookupScale m (truncToInt q)).getD 0 = 0
      · have : featureActive m f = false := by simp [hact, hz]
        rw [activeCoords_cons, this]
        simpa [calcBoundsLoop, hq, hz] using ih st hrest
      · have : featureActive m f = true := by simp [hact, hz]
        rw [activeCoords_cons, this]
        simp only [if_pos, List.foldl_append]
        have := ih ((featureCoords f).foldl boundsStep st) hrest
        simpa [calcBoundsLoop, hq, hz, featureBoundsFold_eq_foldl] using this

/-- C6: in adaptive mode, when every feature carries a numeric id (no
panic), at least one active coordinate exists, and all active coordinates
are genuine geographic coordinates, the computed bounding box is exactly
the componentwise minimum/maximum over every coordinate of every ring of
every region whose severity is nonzero: each component bounds all active
coordinates and is attained by one of them.  Coordinates of inactive
regions do not occur in `activeCoords` and so contribute nothing. -/
theorem c6_adaptive_bounds_exact (fc : List Feature) (m : List (ℤ × ℤ))
    (hids : ∀ f ∈ fc, f.idProp ≠ none)
    (hne : activeCoords m fc ≠ [])
    (hrange : ∀ c ∈ activeCoords m fc,
      -180 ≤ c.1 ∧ c.1 ≤ 180 ∧ -90 ≤ c.2 ∧ c.2 ≤ 90) :
    ∃ b, calculateBounds fc m = .ok b
      ∧ (∀ c ∈ activeCoords m fc,
          b.minLon ≤ c.1 ∧ b.minLat ≤ c.2 ∧ c.1 ≤ b.maxLon ∧ c.2 ≤ b.maxLat)
      ∧ (∃ c ∈ activeCoords m fc, c.1 = b.minLon)
      ∧ (∃ c ∈ activeCoords m fc, c.2 = b.minLat)
      ∧ (∃ c ∈ activeCoords m fc, c.1 = b.maxLon)
      ∧ (∃ c ∈ activeCoords m fc, c.2 = b.maxLat) := by
  have hcalc : calculateBounds fc m =
      .ok ((activeCoords m fc).foldl boundsStep ⟨180, 90, -180, -90⟩) :=
    calcBoundsLoop_eq_foldl fc m ⟨180, 90, -180, -90⟩ hids
  obtain ⟨h1, h2, h3, h4⟩ :=
    foldl_boundsStep_components (activeCoords m fc) ⟨180, 90, -180, -90⟩
  obtain ⟨c0, hc0⟩ := List.exists_mem_of_ne_nil _ hne
  refine ⟨_, hcalc, ?_, ?_, ?_, ?_, ?_⟩
  · intro c hc
    refine ⟨?_, ?_, ?_, ?_⟩
    · rw [h1]
      exact (foldl_min_le Prod.fst (activeCoords m fc) 180).2 c hc
    · rw [h2]
      exact (foldl_min_le Prod.snd (activeCoords m fc) 90).2 c hc
    · rw [h3]
      exact (foldl_max_le Prod.fst (activeCoords m fc) (-180)).2 c hc
    · rw [h4]
      exact (foldl_max_le Prod.snd (activeCoords m fc) (-90)).2 c hc
  · rcases foldl_min_attained Prod.fst (activeCoords m fc) 180 with h | ⟨c, hc, h⟩
    · refine ⟨c0, hc0, ?_⟩
      rw [h1, h]
      have hle : (180 : ℚ) ≤ c0.1 := by
        have := (foldl_min_le Prod.fst (activeCoords m fc) 180).2 c0 hc0
        rwa [h] at this
      exact le_antisymm (hrange c0 hc0).2.1 hle
    · exact ⟨c, hc, by rw [h1, h]⟩
  · rcases foldl_min_attained Prod.snd (activeCoords m fc) 90 with h | ⟨c, hc, h⟩
    · refine ⟨c0, hc0, ?_⟩
      rw [h2, h]
      have hle : (90 : ℚ) ≤ c0.2 := by
        have := (foldl_min_le Prod.snd (activeCoords m fc) 90).2 c0 hc0
        rwa [h] at this
      exact le_antisymm (hrange c0 hc0).2.2.2 hle
    · exact ⟨c, hc, by rw [h2, h]⟩
  · rcases foldl_max_attained Prod.fst (activeCoords m fc) (-180) with h | ⟨c, hc, h⟩
    · refine ⟨c0, hc0, ?_⟩
      rw [h3, h]
      have hle : c0.1 ≤ (-180 : ℚ) := by
        have := (foldl_max_le Prod.fst (activeCoords m fc) (-180)).2 c0 hc0
        rwa [h] at this
      exact le_antisymm hle (hrange c0 hc0).1
    · exact ⟨c, hc, by rw [h3, h]⟩
  · rcases foldl_max_attained Prod.snd (activeCoords m fc) (-90) with h | ⟨c, hc, h⟩
    · refine ⟨c0, hc0, ?_⟩
      rw [h4, h]
      have hle : c0.2 ≤ (-90 : ℚ) := by
        have := (foldl_max_le Prod.snd (activeCoords m fc) (-90)).2 c0 hc0
        rwa [h] at this
      exact le_antisymm hle (hrange c0 hc0).2.2.1
    · exact ⟨c, hc, by rw [h4, h]⟩

/-- C6, witness: one active polygon region (severity 5) and one inactive
region whose far-away coordinates do not influence the box. -/
theorem c6_adaptive_bounds_exact_witness :
    ∃ b, calculateBounds
        [⟨some 13, .polygon, [[(130, 30), (140, 40)]], []⟩,
          ⟨some 1, .polygon, [[(0, 0)]], []⟩] [(13, 5)] = .ok b
      ∧ (∀ c ∈ activeCoords [(13, 5)]
            [⟨some 13, .polygon, [[(130, 30), (140, 40)]], []⟩,
              ⟨some 1, .polygon, [[(0, 0)]], []⟩],
          b.minLon ≤ c.1 ∧ b.minLat ≤ c.2 ∧ c.1 ≤ b.maxLon ∧ c.2 ≤ b.maxLat)
      ∧ (∃ c ∈ activeCoords [(13, 5)]
            [⟨some 13, .polygon, [[(130, 30), (140, 40)]], []⟩,
              ⟨some 1, .polygon, [[(0, 0)]], []⟩], c.1 = b.minLon)
      ∧ (∃ c ∈ activeCoords [(13, 5)]
            [⟨some 13, .polygon, [[(130, 30), (140, 40)]], []⟩,
              ⟨some 1, .polygon, [[(0, 0)]], []⟩], c.2 = b.minLat)
      ∧ (∃ c ∈ activeCoords [(13, 5)]
            [⟨some 13, .polygon, [[(130, 30), (140, 40)]], []⟩,
              ⟨some 1, .polygon, [[(0, 0)]], []⟩], c.1 = b.maxLon)
      ∧ (∃ c ∈ activeCoords [(13, 5)]
            [⟨some 13, .polygon, [[(130, 30), (140, 40)]], []⟩,
              ⟨some 1, .polygon, [[(0, 0)]], []⟩], c.2 = b.maxLat) :=
  c6_adaptive_bounds_exact
    [⟨some 13, .polygon, [[(130, 30), (140, 40)]], []⟩,
      ⟨some 1, .polygon, [[(0, 0)]], []⟩] [(13, 5)]
    (by decide) (by decide) (by decide)

theorem funcToScreen_eq (a b c d lon lat : ℝ) :
    funcToScreen a b c d lon lat =
      ((lon - (c + a) / 2) * Real.cos ((d + b) / 2 * Real.pi / 180) *
          min (1024 / ((c - a) * Real.cos ((d + b) / 2 * Real.pi / 180)))
            (576 / (d - b)) + 640,
        ((d + b) / 2 - lat) *
          min (1024 / ((c - a) * Real.cos ((d + b) / 2 * Real.pi / 180)))
            (576 / (d - b)) + 360) := by
  unfold funcToScreen
  norm_num

/-- C5: for every non-degenerate bounding box with latitudes inside
[-90, 90], the adaptive projection maps the box's center exactly to the
canvas center (640, 360); it has the closed form
"(delta lon) * cos(centerLat*pi/180) * scale + 640" /
"(centerLat - lat) * scale + 360" with the single scale factor equal to
the minimum of the two axis-specific factors 1024/(lonSpan*cos(...)) and
576/latSpan; and every point of the box lands inside the 10% inset
margins, x in [128, 1152] and y in [72, 648], hence inside the 1280x720
canvas. -/
theorem c5_adaptive_projection (a b c d : ℝ)
    (hlon : a < c) (hlat : b < d) (hb : -90 ≤ b) (hd : d ≤ 90) :
    funcToScreen a b c d ((c + a) / 2) ((d + b) / 2) = (640, 360)
    ∧ (∀ lon lat : ℝ, funcToScreen a b c d lon lat =
        ((lon - (c + a) / 2) * Real.cos ((d + b) / 2 * Real.pi / 180) *
            min (1024 / ((c - a) * Real.cos ((d + b) / 2 * Real.pi / 180)))
              (576 / (d - b)) + 640,
          ((d + b) / 2 - lat) *
            min (1024 / ((c - a) * Real.cos ((d + b) / 2 * Real.pi / 180)))
              (576 / (d - b)) + 360))
    ∧ (∀ lon lat : ℝ, a ≤ lon → lon ≤ c → b ≤ lat → lat ≤ d →
        128 ≤ (funcToScreen a b c d lon lat).1 ∧
        (funcToScreen a b c d lon lat).1 ≤ 1152 ∧
        72 ≤ (funcToScreen a b c d lon lat).2 ∧
        (funcToScreen a b c d lon lat).2 ≤ 648) := by
  have hcorr : 0 < Real.cos ((d + b) / 2 * Real.pi / 180) := by
    apply Real.cos_pos_of_mem_Ioo
    constructor
    · nlinarith [Real.pi_pos, mul_pos (show (0 : ℝ) < (d + b) / 2 + 90 by linarith) Real.pi_pos]
    · nlinarith [Real.pi_pos, mul_pos (show (0 : ℝ) < 90 - (d + b) / 2 by linarith) Real.pi_pos]
  have hw : (0 : ℝ) < c - a := by linarith
  have hh : (0 : ℝ) < d - b := by linarith
  have hlonspan : 0 < (c - a) * Real.cos ((d + b) / 2 * Real.pi / 180) := mul_pos hw hcorr
  have hsX : 0 < 1024 / ((c - a) * Real.cos ((d + b) / 2 * Real.pi / 180)) :=
    div_pos (by norm_num) hlonspan
  have hsY : (0 : ℝ) < 576 / (d - b) := div_pos (by norm_num) hh
  have hspos : 0 < min (1024 / ((c - a) * Real.cos ((d + b) / 2 * Real.pi / 180)))
      (576 / (d - b)) := lt_min hsX hsY
  have hsle1 : min (1024 / ((c - a) * Real.cos ((d + b) / 2 * Real.pi / 180)))
      (576 / (d - b)) ≤ 1024 / ((c - a) * Real.cos ((d + b) / 2 * Real.pi / 180)) :=
    min_le_left _ _
  have hsle2 : min (1024 / ((c - a) * Real.cos ((d + b) / 2 * Real.pi / 180)))
      (576 / (d - b)) ≤ 576 / (d - b) := min_le_right _ _
  have keyX : ∀ t : ℝ, t ≠ 0 → t / 2 * (1024 / t) = 512 := by
    intro t ht
    field_simp
    ring
  have keyY : ∀ t : ℝ, t ≠ 0 → t / 2 * (576 / t) = 288 := by
    intro t ht
    field_simp
    ring
  have hxmax : (c - a) / 2 * Real.cos ((d + b) / 2 * Real.pi / 180) *
      min (1024 / ((c - a) * Real.cos ((d + b) / 2 * Real.pi / 180)))
        (576 / (d - b)) ≤ 512 := by
    have h1 : (c - a) / 2 * Real.cos ((d + b) / 2 * Real.pi / 180) *
        min (1024 / ((c - a) * Real.cos ((d + b) / 2 * Real.pi / 180)))
          (576 / (d - b)) ≤
        (c - a) / 2 * Real.cos ((d + b) / 2 * Real.pi / 180) *
          (1024 / ((c - a) * Real.cos ((d + b) / 2 * Real.pi / 180))) := by
      apply mul_le_mul_of_nonneg_left hsle1
      positivity
    have h2 : (c - a) / 2 * Real.cos ((d + b) / 2 * Real.pi / 180) *
        (1024 / ((c - a) * Real.cos ((d + b) / 2 * Real.pi / 180))) = 512 :=
      calc (c - a) / 2 * Real.cos ((d + b) / 2 * Real.pi / 180) *
            (1024 / ((c - a) * Real.cos ((d + b) / 2 * Real.pi / 180)))
          = (c - a) * Real.cos ((d + b) / 2 * Real.pi / 180) / 2 *
            (1024 / ((c - a) * Real.cos ((d + b) / 2 * Real.pi / 180))) := by ring
        _ = 512 := keyX _ (ne_of_gt hlonspan)
    linarith
  have hymax : (d - b) / 2 *
      min (1024 / ((c - a) * Real.cos ((d + b) / 2 * Real.pi / 180)))
        (576 / (d - b)) ≤ 288 := by
    have h1 : (d - b) / 2 *
        min (1024 / ((c - a) * Real.cos ((d + b) / 2 * Real.pi / 180)))
          (576 / (d - b)) ≤ (d - b) / 2 * (576 / (d - b)) := by
      apply mul_le_mul_of_nonneg_left hsle2
      positivity
    have h2 : (d - b) / 2 * (576 / (d - b)) = 288 := keyY _ (ne_of_gt hh)
    linarith
  refine ⟨?_, fun lon lat => funcToScreen_eq a b c d lon lat, ?_⟩
  · rw [funcToScreen_eq]
    simp only [Prod.mk.injEq]
    constructor <;> ring_nf
  · intro lon lat h1 h2 h3 h4
    rw [funcToScreen_eq]
    have hx1 : (lon - (c + a) / 2) * Real.cos ((d + b) / 2 * Real.pi / 180) *
        min (1024 / ((c - a) * Real.cos ((d + b) / 2 * Real.pi / 180)))
          (576 / (d - b)) ≤
        (c - a) / 2 * Real.cos ((d + b) / 2 * Real.pi / 180) *
          min (1024 / ((c - a) * Real.cos ((d + b) / 2 * Real.pi / 180)))
            (576 / (d - b)) := by
      apply mul_le_mul_of_nonneg_right _ hspos.le
      apply mul_le_mul_of_nonneg_right _ hcorr.le
      linarith
    have hx2 : -((c - a) / 2) * Real.cos ((d + b) / 2 * Real.pi / 180) *
        min (1024 / ((c - a) * Real.cos ((d + b) / 2 * Real.pi / 180)))
          (576 / (d - b)) ≤
        (lon - (c + a) / 2) * Real.cos ((d + b) / 2 * Real.pi / 180) *
          min (1024 / ((c - a) * Real.cos ((d + b) / 2 * Real.pi / 180)))
            (576 / (d - b)) := by
      apply mul_le_mul_of_nonneg_right _ hspos.le
      apply mul_le_mul_of_nonneg_right _ hcorr.le
      linarith
    have hy1 : ((d + b) / 2 - lat) *
        min (1024 / ((c - a) * Real.cos ((d + b) / 2 * Real.pi / 180)))
          (576 / (d - b)) ≤
        (d - b) / 2 *
          min (1024 / ((c - a) * Real.cos ((d + b) / 2 * Real.pi / 180)))
            (576 / (d - b)) := by
      apply mul_le_mul_of_nonneg_right _ hspos.le
      linarith
    have hy2 : -((d - b) / 2) *
        min (1024 / ((c - a) * Real.cos ((d + b) / 2 * Real.pi / 180)))
          (576 / (d - b)) ≤
        ((d + b) / 2 - lat) *
          min (1024 / ((c - a) * Real.cos ((d + b) / 2 * Real.pi / 180)))
            (576 / (d - b)) := by
      apply mul_le_mul_of_nonneg_right _ hspos.le
      linarith
    refine ⟨?_, ?_, ?_, ?_⟩
    · show 128 ≤ (lon - (c + a) / 2) * Real.cos ((d + b) / 2 * Real.pi / 180) *
        min (1024 / ((c - a) * Real.cos ((d + b) / 2 * Real.pi / 180)))
          (576 / (d - b)) + 640
      linarith
    · show (lon - (c + a) / 2) * Real.cos ((d + b) / 2 * Real.pi / 180) *
        min (1024 / ((c - a) * Real.cos ((d + b) / 2 * Real.pi / 180)))
          (576 / (d - b)) + 640 ≤ 1152
      linarith
    · show 72 ≤ ((d + b) / 2 - lat) *
        min (1024 / ((c - a) * Real.cos ((d + b) / 2 * Real.pi / 180)))
          (576 / (d - b)) + 360
      linarith
    · show ((d + b) / 2 - lat) *
        min (1024 / ((c - a) * Real.cos ((d + b) / 2 * Real.pi / 180)))
          (576 / (d - b)) + 360 ≤ 648
      linarith

/-- C5, witness: the box lon in [130,140], lat in [30,40] — the center
maps to (640, 360) and the corner (140, 30) lands inside the margins. -/
theorem c5_adaptive_projection_witness :
    funcToScreen 130 30 140 40 ((140 + 130) / 2) ((40 + 30) / 2) = (640, 360)
    ∧ (128 ≤ (funcToScreen 130 30 140 40 140 30).1 ∧
        (funcToScreen 130 30 140 40 140 30).1 ≤ 1152 ∧
        72 ≤ (funcToScreen 130 30 140 40 140 30).2 ∧
        (funcToScreen 130 30 140 40 140 30).2 ≤ 648) := by
  have h := c5_adaptive_projection 130 30 140 40 (by norm_num) (by norm_num)
    (by norm_num) (by norm_num)
  exact ⟨h.1, h.2.2 140 30 (by norm_num) (by norm_num) (by norm_num) (by norm_num)⟩
